import Mathlib

/-
  Verification of the ElderlyFallDetectionAlertSystemInOCI backend.

  Shallow embedding of the Python sources under backend/app/:
  schemas.py, fall.py, pose.py and the job registry of main.py.
  Python floats are modelled as rationals where the code only performs
  field arithmetic and comparisons, and as reals where transcendental
  functions (atan2, exp) are involved.
-/

namespace FallSystem

/-! ## schemas.py

A Keypoint (pydantic model): x, y coordinates, a score validated into
[0,1] by the pydantic field constraint, and an optional joint name.
Coordinates and raw backend values are rationals; the stored score is a
real because the torchvision path stores a logistic-squashed value. -/

structure Keypoint where
  x : ℚ
  y : ℚ
  score : ℝ
  name : Option String

/-- A PersonPose (pydantic model): keypoint list, detection score and an
optional bbox, documented in schemas.py as the 4-tuple [x1, y1, x2, y2]. -/
structure PersonPose where
  keypoints : List Keypoint
  score : ℝ
  bbox : Option (ℚ × ℚ × ℚ × ℚ)

/-! ## fall.py (FallDetector) -/

/-- Embeds math.atan2 (two-argument arctangent, C convention). -/
noncomputable def atan2 (y x : ℝ) : ℝ :=
  if 0 < x then Real.arctan (y / x)
  else if x < 0 then
    (if 0 ≤ y then Real.arctan (y / x) + Real.pi else Real.arctan (y / x) - Real.pi)
  else if 0 < y then Real.pi / 2
  else if y < 0 then -(Real.pi / 2)
  else 0

/-- FallDetector._get_point: first keypoint carrying the requested name. -/
def getPoint (p : PersonPose) (name : String) : Option Keypoint :=
  p.keypoints.find? (fun kp => kp.name == some name)

/-- FallDetector._center: midpoint of two keypoints. -/
def center (a b : Keypoint) : ℚ × ℚ :=
  ((a.x + b.x) / 2, (a.y + b.y) / 2)

/-- FallDetector._torso_angle_deg: angle from vertical, in degrees, of the
vector from the hip midpoint to the shoulder midpoint; None when any of
the four torso keypoints is absent by name. -/
noncomputable def torsoAngleDeg (p : PersonPose) : Option ℝ :=
  match getPoint p "left_shoulder", getPoint p "right_shoulder",
        getPoint p "left_hip", getPoint p "right_hip" with
  | some ls, some rs, some lh, some rh =>
    let s := center ls rs
    let hm := center lh rh
    let dx : ℝ := (s.1 : ℝ) - (hm.1 : ℝ)
    let dy : ℝ := (s.2 : ℝ) - (hm.2 : ℝ)
    some (|atan2 dx dy| * 180 / Real.pi)
  | _, _, _, _ => none

/-- FallDetector._aspect_ratio: bbox width over height, each side floored
at 1; None when there is no bbox. -/
def aspectRatio (p : PersonPose) : Option ℚ :=
  match p.bbox with
  | none => none
  | some (x1, y1, x2, y2) => some (max 1 (x2 - x1) / max 1 (y2 - y1))

/-- FallDetector.score_person: sequential max of the angle and aspect
terms starting from 0, scaled by the damped detection confidence. -/
noncomputable def scorePerson (p : PersonPose) : ℝ :=
  let angle := torsoAngleDeg p
  let score0 : ℝ := 0
  let score1 : ℝ :=
    match angle with
    | some a => max score0 (min 1 (max 0 ((a - 20) / (90 - 20))))
    | none => score0
  let score2 : ℝ :=
    match aspectRatio p with
    | some ar => max score1 (min 1 (max 0 (((ar : ℝ) - 0.8) / (2 - 0.8))))
    | none => score1
  score2 * max 0.5 (min 1 p.score)

/-- FallDetector.predict: (false, 0.0) on the empty list, otherwise the
max of the per-person scores with the fixed 0.6 decision threshold. -/
noncomputable def predict (people : List PersonPose) : Bool × ℝ :=
  match people with
  | [] => (false, 0)
  | p :: rest =>
    let fall_score : ℝ := (rest.map scorePerson).foldl max (scorePerson p)
    (if 0.6 ≤ fall_score then true else false, fall_score)

/-! ### Helper lemmas about folded maxima -/

theorem foldlMax_le {α} [LinearOrder α] :
    ∀ (l : List α) (a : α), a ≤ l.foldl max a := by
  intro l
  induction l with
  | nil => intro a; exact le_refl a
  | cons b l ih =>
    intro a
    exact le_trans (le_max_left a b) (ih (max a b))

theorem foldlMax_ub {α} [LinearOrder α] :
    ∀ (l : List α) (a : α), ∀ x ∈ l, x ≤ l.foldl max a := by
  intro l
  induction l with
  | nil => intro a x hx; cases hx
  | cons b l ih =>
    intro a x hx
    rcases List.mem_cons.mp hx with h | h
    · subst h
      exact le_trans (le_max_right a x) (foldlMax_le l (max a x))
    · exact ih (max a b) x h

theorem foldlMax_mem {α} [LinearOrder α] :
    ∀ (l : List α) (a : α), l.foldl max a = a ∨ l.foldl max a ∈ l := by
  intro l
  induction l with
  | nil => intro a; exact Or.inl rfl
  | cons b l ih =>
    intro a
    rcases ih (max a b) with h | h
    · rcases max_choice a b with hab | hab
      · exact Or.inl (by rw [List.foldl_cons, h, hab])
      · refine Or.inr ?_
        rw [List.foldl_cons, h, hab]
        exact List.mem_cons_self b l
    · exact Or.inr (List.mem_cons_of_mem b h)

/-! ### Claim C1 -/

/-- Claim C1: predict returns (false, 0.0) on the empty list; otherwise
fall_score is the maximum of scorePerson over the people and is_fall
holds exactly when fall_score is at least 0.6. -/
theorem fall_predict_c1 (people : List PersonPose) :
    (people = [] → predict people = (false, 0)) ∧
    (people ≠ [] →
      (∀ p ∈ people, scorePerson p ≤ (predict people).2) ∧
      (∃ p ∈ people, (predict people).2 = scorePerson p) ∧
      ((predict people).1 = true ↔ 0.6 ≤ (predict people).2)) := by
  constructor
  · intro h; subst h; rfl
  · intro hne
    match people with
    | [] => exact absurd rfl hne
    | p :: rest =>
      have hsnd : (predict (p :: rest)).2
          = (rest.map scorePerson).foldl max (scorePerson p) := rfl
      refine ⟨?_, ?_, ?_⟩
      · intro q hq
        rcases List.mem_cons.mp hq with h | h
        · subst h; rw [hsnd]; exact foldlMax_le _ _
        · rw [hsnd]
          exact foldlMax_ub _ _ _ (List.mem_map_of_mem scorePerson h)
      · rcases foldlMax_mem (rest.map scorePerson) (scorePerson p) with h | h
        · exact ⟨p, List.mem_cons_self p rest, by rw [hsnd, h]⟩
        · rcases List.mem_map.mp h with ⟨q, hq, hqs⟩
          exact ⟨q, List.mem_cons_of_mem p hq, by rw [hsnd, ← hqs]⟩
      · show (if (0.6 : ℝ) ≤ (rest.map scorePerson).foldl max (scorePerson p)
            then true else false) = true ↔ _
        rw [hsnd]
        by_cases h : (0.6 : ℝ) ≤ (rest.map scorePerson).foldl max (scorePerson p)
        · simp [h]
        · simp [h]

/-! ### Claim C2 -/

/-- Spec-side angle term: clamp((angle - 20) / 70, 0, 1), contributing 0
when the torso landmarks are absent. -/
noncomputable def angleTermSpec (p : PersonPose) : ℝ :=
  match torsoAngleDeg p with
  | some a => min 1 (max 0 ((a - 20) / 70))
  | none => 0

/-- Spec-side aspect term: clamp((ratio - 0.8) / 1.2, 0, 1), contributing
0 when there is no bbox. -/
noncomputable def aspectTermSpec (p : PersonPose) : ℝ :=
  match aspectRatio p with
  | some r => min 1 (max 0 (((r : ℝ) - 0.8) / 1.2))
  | none => 0

theorem clamp01_nonneg (x : ℝ) : 0 ≤ min 1 (max 0 x) :=
  le_min zero_le_one (le_max_left 0 x)

theorem clamp01_le_one (x : ℝ) : min 1 (max 0 x) ≤ 1 :=
  min_le_left 1 (max 0 x)

theorem angleTermSpec_nonneg (p : PersonPose) : 0 ≤ angleTermSpec p := by
  unfold angleTermSpec
  rcases torsoAngleDeg p with _ | a
  · exact le_refl 0
  · exact clamp01_nonneg _

theorem angleTermSpec_le_one (p : PersonPose) : angleTermSpec p ≤ 1 := by
  unfold angleTermSpec
  rcases torsoAngleDeg p with _ | a
  · exact zero_le_one
  · exact clamp01_le_one _

theorem aspectTermSpec_nonneg (p : PersonPose) : 0 ≤ aspectTermSpec p := by
  unfold aspectTermSpec
  rcases aspectRatio p with _ | r
  · exact le_refl 0
  · exact clamp01_nonneg _

theorem aspectTermSpec_le_one (p : PersonPose) : aspectTermSpec p ≤ 1 := by
  unfold aspectTermSpec
  rcases aspectRatio p with _ | r
  · exact zero_le_one
  · exact clamp01_le_one _

theorem confFactor_nonneg (s : ℝ) : 0 ≤ max 0.5 (min 1 s) :=
  le_trans (by norm_num) (le_max_left (0.5 : ℝ) (min 1 s))

theorem confFactor_le_one (s : ℝ) : max 0.5 (min 1 s) ≤ 1 :=
  max_le (by norm_num) (min_le_left 1 s)

/-- Claim C2: scorePerson equals max(angle term, aspect term) scaled by
the damped confidence, is 0 when neither torso landmarks nor a bbox are
present, and always lies in [0, 1]. -/
theorem score_person_c2 (p : PersonPose) :
    scorePerson p
      = max (angleTermSpec p) (aspectTermSpec p) * max 0.5 (min 1 p.score) ∧
    (torsoAngleDeg p = none → aspectRatio p = none → scorePerson p = 0) ∧
    0 ≤ scorePerson p ∧ scorePerson p ≤ 1 := by
  have h70 : (90 : ℝ) - 20 = 70 := by norm_num
  have h12 : (2 : ℝ) - 0.8 = 1.2 := by norm_num
  have hmain : scorePerson p
      = max (angleTermSpec p) (aspectTermSpec p) * max 0.5 (min 1 p.score) := by
    unfold scorePerson angleTermSpec aspectTermSpec
    rcases hA : torsoAngleDeg p with _ | a <;> rcases hR : aspectRatio p with _ | r <;>
      simp only [hA, hR, h70, h12]
    · simp
    · rw [max_comm]
    · rw [max_eq_right (clamp01_nonneg ((a - 20) / 70))]
  refine ⟨hmain, ?_, ?_, ?_⟩
  · intro hA hR
    unfold scorePerson
    simp only [hA, hR, zero_mul]
  · rw [hmain]
    exact mul_nonneg (le_trans (angleTermSpec_nonneg p) (le_max_left _ _))
      (confFactor_nonneg p.score)
  · rw [hmain]
    calc max (angleTermSpec p) (aspectTermSpec p) * max 0.5 (min 1 p.score)
        ≤ 1 * 1 := by
          apply mul_le_mul (max_le (angleTermSpec_le_one p) (aspectTermSpec_le_one p))
            (confFactor_le_one p.score) (confFactor_nonneg p.score) zero_le_one
      _ = 1 := one_mul 1

/-- Witness for C2: the theorem applied to a person with no keypoints and
no bbox, whose score is therefore 0. -/
theorem score_person_c2_witness :
    torsoAngleDeg { keypoints := [], score := 0, bbox := none } = none ∧
    aspectRatio { keypoints := [], score := 0, bbox := none } = none ∧
    scorePerson { keypoints := [], score := 0, bbox := none } = 0 :=
  ⟨rfl, rfl,
   (score_person_c2 { keypoints := [], score := 0, bbox := none }).2.1 rfl rfl⟩

/-- Witness for C1: the theorem applied to the empty list and to a
concrete singleton list. -/
theorem fall_predict_c1_witness :
    predict [] = (false, 0) ∧
    (∃ p ∈ [({ keypoints := [], score := 0, bbox := none } : PersonPose)],
      (predict [({ keypoints := [], score := 0, bbox := none } : PersonPose)]).2
        = scorePerson p) :=
  ⟨(fall_predict_c1 []).1 rfl,
   ((fall_predict_c1 [{ keypoints := [], score := 0, bbox := none }]).2
      (List.cons_ne_nil _ _)).2.1⟩

/-! ## pose.py (PoseEstimator) -/

/-- utils.py COCO_KEYPOINT_NAMES: the fixed 17-entry joint vocabulary. -/
def COCO_KEYPOINT_NAMES : List String :=
  ["nose", "left_eye", "right_eye", "left_ear", "right_ear",
   "left_shoulder", "right_shoulder", "left_elbow", "right_elbow",
   "left_wrist", "right_wrist", "left_hip", "right_hip",
   "left_knee", "right_knee", "left_ankle", "right_ankle"]

/-- Python round() on an exact rational: round half to even. -/
def pyRound (q : ℚ) : ℤ :=
  if q - (⌊q⌋ : ℚ) < 1 / 2 then ⌊q⌋
  else if (1 : ℚ) / 2 < q - (⌊q⌋ : ℚ) then ⌊q⌋ + 1
  else if ⌊q⌋ % 2 = 0 then ⌊q⌋ else ⌊q⌋ + 1

theorem clampB_nonneg {α : Type} [LinearOrderedRing α] (x : α) :
    0 ≤ max 0 (min 1 x) :=
  le_max_left 0 (min 1 x)

theorem clampB_le_one {α : Type} [LinearOrderedRing α] (x : α) :
    max 0 (min 1 x) ≤ 1 :=
  max_le zero_le_one (min_le_left 1 x)

/-- PoseEstimator._normalize_kp_score: raw scores-tensor values outside
[0,1] get the logistic squash, visibility flags are halved and clamped,
and the result is clamped into [0,1] before being returned. -/
noncomputable def normalizeKpScore (value : ℚ) (used_scores_tensor : Bool) : ℝ :=
  max 0 (min 1 (
    match used_scores_tensor with
    | true =>
      if value < 0 ∨ 1 < value then 1 / (1 + Real.exp (-(value : ℝ)))
      else (value : ℝ)
    | false => ((max 0 (min 1 (value / 2)) : ℚ) : ℝ)))

/-- PoseEstimator._resize_for_inference: downscale so the longer side
does not exceed max_side; returns the new (width, height) and the scale
factor, each new side floored at 1 pixel. -/
def resizeForInference (w h : ℕ) (maxSide : ℕ) : ℤ × ℤ × ℚ :=
  if maxSide < max w h then
    (max 1 (pyRound ((w : ℚ) * ((maxSide : ℚ) / ((max w h : ℕ) : ℚ)))),
     max 1 (pyRound ((h : ℚ) * ((maxSide : ℚ) / ((max w h : ℕ) : ℚ)))),
     (maxSide : ℚ) / ((max w h : ℕ) : ℚ))
  else ((w : ℤ), (h : ℤ), 1)

/-- Constructor parameters of PoseEstimator relevant to the torchvision
path (score_threshold default 0.5, max_side default 640). -/
structure TVConfig where
  score_threshold : ℚ := 1 / 2
  max_side : ℕ := 640

/-- Raw torchvision model output dictionary: boxes, scores, keypoints and
the optionally present keypoint-score tensors (both spellings probed by
the code). -/
structure TVOutputs where
  boxes : Option (List (ℚ × ℚ × ℚ × ℚ))
  scores : Option (List ℚ)
  keypoints : Option (List (List (ℚ × ℚ × ℚ)))
  keypoints_scores : Option (List (List ℚ))
  keypoints_score : Option (List (List ℚ))

/-- One converted torchvision keypoint: coordinates rescaled only when
scale differs from 1, score normalized on the appropriate path, name
assigned by index from the COCO vocabulary. -/
noncomputable def tvKeypoint (scale inv_scale : ℚ) (j : ℕ) (k : ℚ × ℚ × ℚ)
    (rawScore : Option ℚ) : Keypoint :=
  { x := if scale ≠ 1 then k.1 * inv_scale else k.1,
    y := if scale ≠ 1 then k.2.1 * inv_scale else k.2.1,
    score :=
      match rawScore with
      | some raw => normalizeKpScore raw true
      | none => normalizeKpScore k.2.2 false,
    name := COCO_KEYPOINT_NAMES.get? j }

/-- One converted torchvision detection: bbox rescaled only when scale
differs from 1, keypoints converted row-wise. -/
noncomputable def tvPerson (scale inv_scale : ℚ) (bbox : ℚ × ℚ × ℚ × ℚ)
    (score : ℚ) (krow : List (ℚ × ℚ × ℚ)) (ksRow : Option (List ℚ)) : PersonPose :=
  { keypoints :=
      match ksRow with
      | some row => (krow.zip row).enum.map
          (fun e => tvKeypoint scale inv_scale e.1 e.2.1 (some e.2.2))
      | none => krow.enum.map (fun e => tvKeypoint scale inv_scale e.1 e.2 none),
    score := (score : ℝ),
    bbox := some (if scale ≠ 1 then
        (bbox.1 * inv_scale, bbox.2.1 * inv_scale,
         bbox.2.2.1 * inv_scale, bbox.2.2.2 * inv_scale)
      else bbox) }

/-- PoseEstimator._estimate_torchvision: resize bookkeeping, fallback
between the two keypoint-score spellings, empty result when any of
boxes/scores/keypoints is absent, then per-detection conversion with the
fixed confidence threshold. -/
noncomputable def estimateTorchvision (cfg : TVConfig) (w h : ℕ)
    (out : TVOutputs) : List PersonPose :=
  match out.boxes, out.scores, out.keypoints with
  | some boxes, some scores, some keypoints =>
    (boxes.zip (scores.zip (
      match (match out.keypoints_scores with
             | some v => some v
             | none => out.keypoints_score) with
      | some kss => keypoints.zip (kss.map some)
      | none => keypoints.map (fun k => (k, none))))).filterMap (fun item =>
      if item.2.1 < cfg.score_threshold then none
      else some (tvPerson (resizeForInference w h cfg.max_side).2.2
        (if (resizeForInference w h cfg.max_side).2.2 ≠ 0
         then 1 / (resizeForInference w h cfg.max_side).2.2 else 1)
        item.1 item.2.1 item.2.2.1 item.2.2.2))
  | _, _, _ => []

/-! ### Claim C3 -/

/-- Claim C3: the normalized keypoint score always lies in [0,1]; a
scores-tensor value outside [0,1] is returned as its logistic squash, and
a visibility flag is halved and clamped. -/
theorem normalize_kp_score_c3 (v : ℚ) (b : Bool) :
    (0 ≤ normalizeKpScore v b ∧ normalizeKpScore v b ≤ 1) ∧
    ((v < 0 ∨ 1 < v) →
      normalizeKpScore v true = 1 / (1 + Real.exp (-(v : ℝ)))) ∧
    normalizeKpScore v false = ((max 0 (min 1 (v / 2)) : ℚ) : ℝ) := by
  refine ⟨⟨clampB_nonneg _, clampB_le_one _⟩, ?_, ?_⟩
  · intro hv
    have hden : (0 : ℝ) < 1 + Real.exp (-(v : ℝ)) := by positivity
    have h1 : 1 / (1 + Real.exp (-(v : ℝ))) ≤ 1 := by
      rw [div_le_one hden]
      have := Real.exp_pos (-(v : ℝ))
      linarith
    have h0 : (0 : ℝ) ≤ 1 / (1 + Real.exp (-(v : ℝ))) := by positivity
    show max 0 (min 1 (if v < 0 ∨ 1 < v then
        1 / (1 + Real.exp (-(v : ℝ))) else (v : ℝ))) = _
    rw [if_pos hv, min_eq_right h1, max_eq_right h0]
  · show max 0 (min 1 ((max 0 (min 1 (v / 2)) : ℚ) : ℝ)) = _
    have h0 : (0 : ℝ) ≤ ((max 0 (min 1 (v / 2)) : ℚ) : ℝ) := by
      exact_mod_cast clampB_nonneg (v / 2)
    have h1 : ((max 0 (min 1 (v / 2)) : ℚ) : ℝ) ≤ 1 := by
      exact_mod_cast clampB_le_one (v / 2)
    rw [min_eq_right h1, max_eq_right h0]

/-- Witness for C3: at raw value 3 the scores-tensor path returns the
logistic squash. -/
theorem normalize_kp_score_c3_witness :
    ((3 : ℚ) < 0 ∨ 1 < (3 : ℚ)) ∧
    normalizeKpScore 3 true = 1 / (1 + Real.exp (-((3 : ℚ) : ℝ))) :=
  ⟨Or.inr (by decide), (normalize_kp_score_c3 3 true).2.1 (Or.inr (by decide))⟩

/-! ### Claim C8 -/

/-- Claim C8: when boxes, scores or keypoints are absent from the
torchvision output, estimate returns the empty list. -/
theorem torchvision_empty_c8 (cfg : TVConfig) (w h : ℕ) (out : TVOutputs)
    (hnone : out.boxes = none ∨ out.scores = none ∨ out.keypoints = none) :
    estimateTorchvision cfg w h out = [] := by
  unfold estimateTorchvision
  rcases hb : out.boxes with _ | b <;> rcases hs : out.scores with _ | s <;>
    rcases hk : out.keypoints with _ | k <;> simp_all

/-- Witness for C8: a concrete output with no boxes yields no people. -/
theorem torchvision_empty_c8_witness :
    (⟨none, none, none, none, none⟩ : TVOutputs).boxes = none ∧
    estimateTorchvision ⟨1 / 2, 640⟩ 640 480 ⟨none, none, none, none, none⟩ = [] :=
  ⟨rfl, torchvision_empty_c8 ⟨1 / 2, 640⟩ 640 480 _ (Or.inl rfl)⟩

/-! ### Claim C7 -/

/-- Spec-side keypoint conversion: every coordinate is unconditionally
the detector coordinate multiplied by the inverse scale. -/
noncomputable def tvKeypointSpec (inv_scale : ℚ) (j : ℕ) (k : ℚ × ℚ × ℚ)
    (rawScore : Option ℚ) : Keypoint :=
  { x := k.1 * inv_scale,
    y := k.2.1 * inv_scale,
    score :=
      match rawScore with
      | some raw => normalizeKpScore raw true
      | none => normalizeKpScore k.2.2 false,
    name := COCO_KEYPOINT_NAMES.get? j }

/-- Spec-side detection conversion: every bbox coordinate is
unconditionally multiplied by the inverse scale. -/
noncomputable def tvPersonSpec (inv_scale : ℚ) (bbox : ℚ × ℚ × ℚ × ℚ)
    (score : ℚ) (krow : List (ℚ × ℚ × ℚ)) (ksRow : Option (List ℚ)) : PersonPose :=
  { keypoints :=
      match ksRow with
      | some row => (krow.zip row).enum.map
          (fun e => tvKeypointSpec inv_scale e.1 e.2.1 (some e.2.2))
      | none => krow.enum.map (fun e => tvKeypointSpec inv_scale e.1 e.2 none),
    score := (score : ℝ),
    bbox := some (bbox.1 * inv_scale, bbox.2.1 * inv_scale,
                  bbox.2.2.1 * inv_scale, bbox.2.2.2 * inv_scale) }

/-- Spec-side torchvision post-processing, with every returned coordinate
the detector coordinate multiplied by the given inverse scale. -/
noncomputable def tvDetectionsSpec (inv_scale : ℚ) (cfg : TVConfig)
    (out : TVOutputs) : List PersonPose :=
  match out.boxes, out.scores, out.keypoints with
  | some boxes, some scores, some keypoints =>
    (boxes.zip (scores.zip (
      match (match out.keypoints_scores with
             | some v => some v
             | none => out.keypoints_score) with
      | some kss => keypoints.zip (kss.map some)
      | none => keypoints.map (fun k => (k, none))))).filterMap (fun item =>
      if item.2.1 < cfg.score_threshold then none
      else some (tvPersonSpec inv_scale item.1 item.2.1 item.2.2.1 item.2.2.2))
  | _, _, _ => []

theorem pyRound_le_of_le {q : ℚ} {M : ℤ} (h : q ≤ (M : ℚ)) : pyRound q ≤ M := by
  have hfl : ⌊q⌋ ≤ M := by
    have hm := Int.floor_mono h
    rwa [Int.floor_intCast] at hm
  have key : ¬(q - (⌊q⌋ : ℚ) < 1 / 2) → ⌊q⌋ + 1 ≤ M := by
    intro h1
    push_neg at h1
    have hlt : ⌊q⌋ < M := by
      rcases lt_or_eq_of_le hfl with hlt | heq
      · exact hlt
      · exfalso
        rw [heq] at h1
        linarith
    omega
  unfold pyRound
  split_ifs with h1 h2 h3
  · exact hfl
  · exact key h1
  · exact hfl
  · exact key h1

theorem resize_scale_pos (w h maxSide : ℕ) (hms : 1 ≤ maxSide) :
    0 < (resizeForInference w h maxSide).2.2 := by
  unfold resizeForInference
  split_ifs with hlt
  · have hm : (0 : ℚ) < (maxSide : ℚ) := by exact_mod_cast hms
    have hw : (0 : ℚ) < ((max w h : ℕ) : ℚ) := by
      have hp : 0 < max w h := lt_of_le_of_lt (Nat.zero_le _) hlt
      exact_mod_cast hp
    exact div_pos hm hw
  · exact zero_lt_one

theorem tvKeypoint_spec (scale inv : ℚ) (hcase : scale = 1 → inv = 1)
    (j : ℕ) (k : ℚ × ℚ × ℚ) (raw : Option ℚ) :
    tvKeypoint scale inv j k raw = tvKeypointSpec inv j k raw := by
  unfold tvKeypoint tvKeypointSpec
  by_cases hs : scale = 1
  · have h1 := hcase hs
    subst h1
    simp [hs]
  · simp [hs]

theorem tvPerson_spec (scale inv : ℚ) (hcase : scale = 1 → inv = 1)
    (bbox : ℚ × ℚ × ℚ × ℚ) (score : ℚ) (krow : List (ℚ × ℚ × ℚ))
    (ksRow : Option (List ℚ)) :
    tvPerson scale inv bbox score krow ksRow
      = tvPersonSpec inv bbox score krow ksRow := by
  unfold tvPerson tvPersonSpec
  by_cases hs : scale = 1
  · subst hs
    have h1 := hcase rfl
    subst h1
    have hk : ∀ (j : ℕ) (k : ℚ × ℚ × ℚ) (raw : Option ℚ),
        tvKeypoint 1 1 j k raw = tvKeypointSpec 1 j k raw :=
      fun j k raw => tvKeypoint_spec 1 1 (fun _ => rfl) j k raw
    cases ksRow <;> simp [hk]
  · have hk : ∀ (j : ℕ) (k : ℚ × ℚ × ℚ) (raw : Option ℚ),
        tvKeypoint scale inv j k raw = tvKeypointSpec inv j k raw :=
      fun j k raw => tvKeypoint_spec scale inv hcase j k raw
    cases ksRow <;> simp [hs, hk]

theorem estimateTorchvision_spec (cfg : TVConfig) (w h : ℕ) (out : TVOutputs)
    (hms : 1 ≤ cfg.max_side) :
    estimateTorchvision cfg w h out
      = tvDetectionsSpec (1 / (resizeForInference w h cfg.max_side).2.2) cfg out := by
  have hne : (resizeForInference w h cfg.max_side).2.2 ≠ 0 :=
    ne_of_gt (resize_scale_pos w h cfg.max_side hms)
  have hcase : (resizeForInference w h cfg.max_side).2.2 = 1 →
      1 / (resizeForInference w h cfg.max_side).2.2 = 1 := by
    intro h1; rw [h1]; norm_num
  unfold estimateTorchvision tvDetectionsSpec
  rcases hb : out.boxes with _ | boxes <;>
    rcases hsc : out.scores with _ | scores <;>
    rcases hk : out.keypoints with _ | keypoints <;>
    simp only [hb, hsc, hk] <;> try rfl
  congr 1
  funext item
  by_cases hc : item.2.1 < cfg.score_threshold
  · rw [if_pos hc, if_pos hc]
  · rw [if_neg hc, if_neg hc, if_pos hne]
    exact congrArg some (tvPerson_spec _ _ hcase item.1 item.2.1 item.2.2.1 item.2.2.2)

/-- Claim C7 (amended): downscaling happens only when the longer side
exceeds max_side, the new dimensions are max(1, round(side times s)) and
stay within max_side, the scale is nonzero so the coordinate round-trip
is exact, and the returned detections are exactly the raw detections with
every coordinate multiplied by 1/s. -/
theorem resize_rescale_c7 (cfg : TVConfig) (w h : ℕ) (out : TVOutputs)
    (hms : 1 ≤ cfg.max_side) :
    (max w h ≤ cfg.max_side →
      resizeForInference w h cfg.max_side = ((w : ℤ), (h : ℤ), 1)) ∧
    (cfg.max_side < max w h →
      resizeForInference w h cfg.max_side
        = (max 1 (pyRound ((w : ℚ) * ((cfg.max_side : ℚ) / ((max w h : ℕ) : ℚ)))),
           max 1 (pyRound ((h : ℚ) * ((cfg.max_side : ℚ) / ((max w h : ℕ) : ℚ)))),
           (cfg.max_side : ℚ) / ((max w h : ℕ) : ℚ)) ∧
      (resizeForInference w h cfg.max_side).1 ≤ (cfg.max_side : ℤ) ∧
      (resizeForInference w h cfg.max_side).2.1 ≤ (cfg.max_side : ℤ)) ∧
    ((resizeForInference w h cfg.max_side).2.2 ≠ 0 ∧
      ∀ x : ℚ, x * (resizeForInference w h cfg.max_side).2.2
        * (1 / (resizeForInference w h cfg.max_side).2.2) = x) ∧
    estimateTorchvision cfg w h out
      = tvDetectionsSpec (1 / (resizeForInference w h cfg.max_side).2.2) cfg out := by
  have hne : (resizeForInference w h cfg.max_side).2.2 ≠ 0 :=
    ne_of_gt (resize_scale_pos w h cfg.max_side hms)
  refine ⟨?_, ?_, ⟨hne, ?_⟩, estimateTorchvision_spec cfg w h out hms⟩
  · intro hle
    unfold resizeForInference
    rw [if_neg (not_lt.mpr hle)]
  · intro hlt
    have hres : resizeForInference w h cfg.max_side
        = (max 1 (pyRound ((w : ℚ) * ((cfg.max_side : ℚ) / ((max w h : ℕ) : ℚ)))),
           max 1 (pyRound ((h : ℚ) * ((cfg.max_side : ℚ) / ((max w h : ℕ) : ℚ)))),
           (cfg.max_side : ℚ) / ((max w h : ℕ) : ℚ)) := by
      unfold resizeForInference
      rw [if_pos hlt]
    have hwh : (0 : ℚ) < ((max w h : ℕ) : ℚ) := by
      have hp : 0 < max w h := lt_of_le_of_lt (Nat.zero_le _) hlt
      exact_mod_cast hp
    have hwh0 : ((max w h : ℕ) : ℚ) ≠ 0 := ne_of_gt hwh
    have hs0 : (0 : ℚ) ≤ (cfg.max_side : ℚ) / ((max w h : ℕ) : ℚ) :=
      div_nonneg (Nat.cast_nonneg _) (le_of_lt hwh)
    have hbound : ∀ a : ℕ, a ≤ max w h →
        max 1 (pyRound ((a : ℚ) * ((cfg.max_side : ℚ) / ((max w h : ℕ) : ℚ))))
          ≤ (cfg.max_side : ℤ) := by
      intro a ha
      have hcast : (a : ℚ) ≤ ((max w h : ℕ) : ℚ) := by exact_mod_cast ha
      have hcancel : ((max w h : ℕ) : ℚ) * ((cfg.max_side : ℚ) / ((max w h : ℕ) : ℚ))
          = (cfg.max_side : ℚ) := by
        rw [mul_comm]
        exact div_mul_cancel₀ _ hwh0
      have hmul : (a : ℚ) * ((cfg.max_side : ℚ) / ((max w h : ℕ) : ℚ))
          ≤ (((cfg.max_side : ℤ) : ℚ)) := by
        have step : (a : ℚ) * ((cfg.max_side : ℚ) / ((max w h : ℕ) : ℚ))
            ≤ ((max w h : ℕ) : ℚ) * ((cfg.max_side : ℚ) / ((max w h : ℕ) : ℚ)) :=
          mul_le_mul_of_nonneg_right hcast hs0
        rw [hcancel] at step
        exact_mod_cast step
      exact max_le (by exact_mod_cast hms) (pyRound_le_of_le hmul)
    refine ⟨hres, ?_, ?_⟩
    · rw [hres]
      exact hbound w (le_max_left w h)
    · rw [hres]
      exact hbound h (le_max_right w h)
  · intro x
    rw [mul_assoc, mul_one_div_cancel hne, mul_one]

/-- Counterexample for C7 as stated: at a 1 x 1281 image with the default
cap 640, the claimed width round(w times s) is 0 but the code floors the
side at 1 pixel. -/
theorem resize_rescale_c7_counterexample :
    pyRound ((1 : ℚ) * ((640 : ℚ) / ((max 1 1281 : ℕ) : ℚ))) = 0 ∧
    (resizeForInference 1 1281 640).1 = 1 ∧
    (resizeForInference 1 1281 640).1
      ≠ pyRound ((1 : ℚ) * ((640 : ℚ) / ((max 1 1281 : ℕ) : ℚ))) := by
  have hmax : ((max 1 1281 : ℕ) : ℚ) = 1281 := by norm_num
  have hval : (1 : ℚ) * ((640 : ℚ) / ((max 1 1281 : ℕ) : ℚ)) = 640 / 1281 := by
    rw [hmax, one_mul]
  have hfloor : ⌊(640 : ℚ) / 1281⌋ = 0 := by
    rw [Int.floor_eq_iff]
    constructor <;> norm_num
  have hpy : pyRound ((640 : ℚ) / 1281) = 0 := by
    unfold pyRound
    rw [hfloor]
    rw [if_pos (by norm_num : (640 : ℚ) / 1281 - ((0 : ℤ) : ℚ) < 1 / 2)]
  have h0 : pyRound ((1 : ℚ) * ((640 : ℚ) / ((max 1 1281 : ℕ) : ℚ))) = 0 := by
    rw [hval]; exact hpy
  have h1 : (resizeForInference 1 1281 640).1 = 1 := by
    show (if (640 : ℕ) < max 1 1281 then _ else _ : ℤ × ℤ × ℚ).1 = 1
    rw [if_pos (by norm_num : (640 : ℕ) < max 1 1281)]
    show max 1 (pyRound ((1 : ℚ) * ((640 : ℚ) / ((max 1 1281 : ℕ) : ℚ)))) = 1
    rw [h0]
    exact max_eq_left (by norm_num)
  refine ⟨h0, h1, ?_⟩
  rw [h0, h1]
  decide

/-- Witness for C7: the theorem applied to a concrete 1280 x 960 image
with the default 640 cap and an empty detector output. -/
theorem resize_rescale_c7_witness :
    resizeForInference 1280 960 640
      = (max 1 (pyRound ((1280 : ℚ) * ((640 : ℚ) / ((max 1280 960 : ℕ) : ℚ)))),
         max 1 (pyRound ((960 : ℚ) * ((640 : ℚ) / ((max 1280 960 : ℕ) : ℚ)))),
         (640 : ℚ) / ((max 1280 960 : ℕ) : ℚ)) ∧
    estimateTorchvision ⟨1 / 2, 640⟩ 1280 960 ⟨none, none, none, none, none⟩
      = tvDetectionsSpec (1 / (resizeForInference 1280 960 640).2.2)
          ⟨1 / 2, 640⟩ ⟨none, none, none, none, none⟩ :=
  ⟨((resize_rescale_c7 ⟨1 / 2, 640⟩ 1280 960 ⟨none, none, none, none, none⟩
      (by decide)).2.1 (by decide)).1,
   (resize_rescale_c7 ⟨1 / 2, 640⟩ 1280 960 ⟨none, none, none, none, none⟩
      (by decide)).2.2.2⟩

/-! ### Claim C6 -/

/-- One raw Sports2D pose: keypoint triples, the optional score (the code
reads it with default 1.0) and the optional bbox passed through. -/
structure S2DPose where
  keypoints : List (ℚ × ℚ × ℚ)
  score : Option ℚ
  bbox : Option (ℚ × ℚ × ℚ × ℚ)

/-- The pydantic validation failures raised by the score field
constraints of Keypoint and PersonPose (Field ge=0, le=1). -/
inductive PydanticError where
  | keypointScoreOut
  | personScoreOut
deriving DecidableEq

/-- Keypoint construction through pydantic: the score field constraint
0 le score le 1 raises a validation error instead of clamping. -/
noncomputable def mkKeypoint (x y s : ℚ) (name : Option String) :
    Except PydanticError Keypoint :=
  if s < 0 ∨ 1 < s then Except.error PydanticError.keypointScoreOut
  else Except.ok { x := x, y := y, score := (s : ℝ), name := name }

/-- PersonPose construction through pydantic: same validation on the
detection score; the bbox is not validated. -/
noncomputable def mkPersonPose (kps : List Keypoint) (s : ℚ)
    (bbox : Option (ℚ × ℚ × ℚ × ℚ)) : Except PydanticError PersonPose :=
  if s < 0 ∨ 1 < s then Except.error PydanticError.personScoreOut
  else Except.ok { keypoints := kps, score := (s : ℝ), bbox := bbox }

/-- The keypoint list comprehension of _estimate_sports2d: built in
order, the first validation error aborts the call. -/
noncomputable def buildKeypoints :
    List (ℚ × ℚ × ℚ) → Except PydanticError (List Keypoint)
  | [] => Except.ok []
  | k :: rest =>
    match mkKeypoint k.1 k.2.1 k.2.2 none with
    | Except.error e => Except.error e
    | Except.ok kp =>
      match buildKeypoints rest with
      | Except.error e => Except.error e
      | Except.ok kps => Except.ok (kp :: kps)

/-- PoseEstimator._estimate_sports2d: per pose, build the keypoints and
the PersonPose with score defaulting to 1.0 and the bbox passed through;
the first pydantic validation error aborts the call. -/
noncomputable def estimateSports2d :
    List S2DPose → Except PydanticError (List PersonPose)
  | [] => Except.ok []
  | pose :: rest =>
    match buildKeypoints pose.keypoints with
    | Except.error e => Except.error e
    | Except.ok kps =>
      match mkPersonPose kps (pose.score.getD 1) pose.bbox with
      | Except.error e => Except.error e
      | Except.ok p =>
        match estimateSports2d rest with
        | Except.error e => Except.error e
        | Except.ok people => Except.ok (p :: people)

/-- Spec-side direct pass-through of one Sports2D pose. -/
noncomputable def sports2dDirect (pose : S2DPose) : PersonPose :=
  { keypoints := pose.keypoints.map
      (fun k => { x := k.1, y := k.2.1, score := (k.2.2 : ℝ), name := none }),
    score := ((pose.score.getD 1 : ℚ) : ℝ),
    bbox := pose.bbox }

theorem buildKeypoints_ok (ks : List (ℚ × ℚ × ℚ)) (kps : List Keypoint)
    (hok : buildKeypoints ks = Except.ok kps) :
    kps = ks.map (fun k => Keypoint.mk k.1 k.2.1 (k.2.2 : ℝ) none) ∧
    ∀ kp ∈ kps, 0 ≤ kp.score ∧ kp.score ≤ 1 := by
  induction ks generalizing kps with
  | nil =>
    cases hok
    exact ⟨rfl, by intro kp h; cases h⟩
  | cons k rest ih =>
    unfold buildKeypoints mkKeypoint at hok
    split at hok
    · cases hok
    · rename_i kp heq
      split at hok
      · cases hok
      · rename_i kps2 heq2
        cases hok
        by_cases hv : k.2.2 < 0 ∨ 1 < k.2.2
        · rw [if_pos hv] at heq; cases heq
        · rw [if_neg hv] at heq
          cases heq
          push_neg at hv
          rcases ih kps2 heq2 with ⟨hmapeq, hbd⟩
          constructor
          · rw [List.map_cons, ← hmapeq]
          · intro kp2 hkp2
            rcases List.mem_cons.mp hkp2 with h | h
            · subst h
              constructor
              · show (0 : ℝ) ≤ ((k.2.2 : ℚ) : ℝ)
                exact_mod_cast hv.1
              · show ((k.2.2 : ℚ) : ℝ) ≤ 1
                exact_mod_cast hv.2
            · exact hbd kp2 h

/-- Claim C6 (amended): on the Sports2D path a normal return passes every
pose through unchanged and every confidence lies in [0,1], but this holds
by pydantic validation, not clamping: a raw score outside [0,1] aborts
the call with a validation error instead of being clamped. -/
theorem sports2d_c6 (outputs : List S2DPose) (res : List PersonPose)
    (hok : estimateSports2d outputs = Except.ok res) :
    res = outputs.map sports2dDirect ∧
    ∀ p ∈ res, (0 ≤ p.score ∧ p.score ≤ 1) ∧
      ∀ kp ∈ p.keypoints, 0 ≤ kp.score ∧ kp.score ≤ 1 := by
  induction outputs generalizing res with
  | nil =>
    cases hok
    exact ⟨rfl, by intro p h; cases h⟩
  | cons pose rest ih =>
    unfold estimateSports2d mkPersonPose at hok
    split at hok
    · cases hok
    · rename_i kps heq
      split at hok
      · cases hok
      · rename_i p heqp
        split at hok
        · cases hok
        · rename_i people heqr
          cases hok
          by_cases hv : pose.score.getD 1 < 0 ∨ 1 < pose.score.getD 1
          · rw [if_pos hv] at heqp; cases heqp
          · rw [if_neg hv] at heqp
            cases heqp
            push_neg at hv
            rcases ih people heqr with ⟨hmeq, hbd⟩
            rcases buildKeypoints_ok pose.keypoints kps heq with ⟨hkeq, hkbd⟩
            constructor
            · rw [List.map_cons, ← hmeq]
              unfold sports2dDirect
              rw [hkeq]
            · intro q hq
              rcases List.mem_cons.mp hq with h | h
              · subst h
                refine ⟨⟨?_, ?_⟩, hkbd⟩
                · show (0 : ℝ) ≤ ((pose.score.getD 1 : ℚ) : ℝ)
                  exact_mod_cast hv.1
                · show ((pose.score.getD 1 : ℚ) : ℝ) ≤ 1
                  exact_mod_cast hv.2
              · exact hbd q h

/-- Counterexample for C6 as stated: a raw keypoint score of 2 makes the
call raise a pydantic validation error instead of returning normally with
a clamped confidence. -/
theorem sports2d_c6_counterexample :
    estimateSports2d [{ keypoints := [(0, 0, 2)], score := none, bbox := none }]
      = Except.error PydanticError.keypointScoreOut := rfl

/-- Witness for C6: the theorem applied to a concrete in-range output. -/
theorem sports2d_c6_witness :
    estimateSports2d [{ keypoints := [(4, 5, 1)], score := some 1, bbox := some (0, 0, 4, 5) }]
      = Except.ok ([{ keypoints := [(4, 5, 1)], score := some 1, bbox := some (0, 0, 4, 5) }].map sports2dDirect) ∧
    ∀ p ∈ ([({ keypoints := [(4, 5, 1)], score := some 1, bbox := some (0, 0, 4, 5) } : S2DPose)].map sports2dDirect),
      (0 ≤ p.score ∧ p.score ≤ 1) ∧
      ∀ kp ∈ p.keypoints, 0 ≤ kp.score ∧ kp.score ≤ 1 :=
  ⟨rfl,
   (sports2d_c6 [{ keypoints := [(4, 5, 1)], score := some 1, bbox := some (0, 0, 4, 5) }]
      ([({ keypoints := [(4, 5, 1)], score := some 1, bbox := some (0, 0, 4, 5) } : S2DPose)].map sports2dDirect)
      rfl).2⟩

/-! ## main.py (job registry and signal handler) -/

/-- Job status strings written by the registry operations. -/
inductive JobStatus where
  | running
  | done
  | error
deriving DecidableEq

/-- One _JOBS entry, as initialized by _start_job_state and mutated by
the registry operations. -/
structure Job where
  status : JobStatus
  processed : ℤ
  total : Option ℤ
  error : Option String
  out_path : Option String
  filename : String
deriving DecidableEq

/-- The _JOBS dict, rendered as an association list keyed by job_id. -/
abbrev Jobs : Type := List (String × Job)

/-- _JOBS.get(job_id): value at the key, None when absent. -/
def jobsGet : Jobs → String → Option Job
  | [], _ => none
  | e :: rest, job_id =>
    if e.1 == job_id then some e.2 else jobsGet rest job_id

/-- The total update of _update_job: overwritten only when the argument
is not None. -/
def updTotal (t : Option ℤ) (old : Option ℤ) : Option ℤ :=
  match t with
  | some t0 => some t0
  | none => old

/-- _update_job: if the job_id is registered, overwrite processed (and
total when given); mutation of the dict value at the key. -/
def updateJob (jobs : Jobs) (job_id : String) (processed : ℤ)
    (total : Option ℤ) : Jobs :=
  jobs.map (fun e => if e.1 == job_id then
    (e.1, { e.2 with processed := processed, total := updTotal total e.2.total })
    else e)

/-- _finish_job: if the job_id is registered, set status done and record
the output path. -/
def finishJob (jobs : Jobs) (job_id : String) (out_path : String) : Jobs :=
  jobs.map (fun e => if e.1 == job_id then
    (e.1, { e.2 with status := JobStatus.done, out_path := some out_path })
    else e)

/-- _error_job: if the job_id is registered, set status error and record
the message. -/
def errorJob (jobs : Jobs) (job_id : String) (message : String) : Jobs :=
  jobs.map (fun e => if e.1 == job_id then
    (e.1, { e.2 with status := JobStatus.error, error := some message })
    else e)

/-- Response of the annotate_progress endpoint. -/
structure ProgressResp where
  status : JobStatus
  processed : ℤ
  total : Option ℤ
  percent : Option ℚ
  error : Option String
deriving DecidableEq

/-- annotate_progress: 404 for an unknown job_id, else status, counters
and the clamped percentage when the total is a positive int. -/
def annotateProgress (jobs : Jobs) (job_id : String) : Except ℕ ProgressResp :=
  match jobsGet jobs job_id with
  | none => Except.error 404
  | some job =>
    Except.ok
      { status := job.status, processed := job.processed, total := job.total,
        percent :=
          match job.total with
          | some t =>
            if 0 < t then some (min 100 (max 0 ((job.processed : ℚ) / (t : ℚ) * 100)))
            else none
          | none => none,
        error := job.error }

/-- Python str.rsplit with separator "." and maxsplit 1, first part:
everything before the last dot, or the whole string without one. -/
def rsplitDropLastExt (s : String) : String :=
  match s.splitOn "." with
  | [x] => x
  | parts => String.intercalate "." parts.dropLast

/-- The FileResponse produced by annotate_result. -/
structure FileResp where
  path : String
  media_type : String
  filename : String
deriving DecidableEq

/-- annotate_result: 404 for an unknown job_id, 409 when the job is not
done, 410 when the output path is unset, empty or no longer on disk. -/
def annotateResult (jobs : Jobs) (fileExists : String → Bool)
    (job_id : String) : Except ℕ FileResp :=
  match jobsGet jobs job_id with
  | none => Except.error 404
  | some job =>
    if job.status ≠ JobStatus.done then Except.error 409
    else
      match job.out_path with
      | none => Except.error 410
      | some p =>
        if p = "" ∨ fileExists p = false then Except.error 410
        else Except.ok
          { path := p, media_type := "video/mp4",
            filename := (if job.filename ≠ "" then rsplitDropLastExt job.filename
              else "annotated") ++ "_annotated.mp4" }

/-- The Python exception classes relevant to _set_stop_event: SystemExit
derives from BaseException only, not from Exception. -/
inductive ExcClass where
  | systemExit
  | exceptionSubclass
deriving DecidableEq

/-- Whether an except-Exception clause catches the raised class. -/
def subclassOfException : ExcClass → Bool
  | ExcClass.systemExit => false
  | ExcClass.exceptionSubclass => true

/-- _set_stop_event: the try body logs and calls sys.exit(0), which
raises SystemExit; the except-Exception clause catches only Exception
subclasses, in which case execution falls through to _STOP_EVENT.set();
otherwise the exception propagates and the event is left as it was.
Returns the stop-event value and the propagated exception, if any. -/
def setStopEvent (stop : Bool) : Bool × Option ExcClass :=
  match (some ExcClass.systemExit : Option ExcClass) with
  | some e =>
    if subclassOfException e then (true, none)
    else (stop, some e)
  | none => (true, none)

/-! ### Registry helper lemmas -/

theorem jobsGet_map_guard (jobs : Jobs) (job_id : String) (upd : Job → Job) :
    jobsGet (jobs.map (fun e => if e.1 == job_id then (e.1, upd e.2) else e)) job_id
      = (jobsGet jobs job_id).map upd := by
  induction jobs with
  | nil => rfl
  | cons a l ih =>
    rw [List.map_cons]
    by_cases h : (a.1 == job_id) = true
    · rw [if_pos h]
      simp [jobsGet, h]
    · rw [if_neg h]
      simp only [jobsGet]
      rw [if_neg h, if_neg h]
      exact ih

theorem jobsGet_map_guard_other (jobs : Jobs) (job_id other : String)
    (upd : Job → Job) (hne : other ≠ job_id) :
    jobsGet (jobs.map (fun e => if e.1 == job_id then (e.1, upd e.2) else e)) other
      = jobsGet jobs other := by
  induction jobs with
  | nil => rfl
  | cons a l ih =>
    rw [List.map_cons]
    by_cases hj : (a.1 == job_id) = true
    · have hkey : a.1 = job_id := by simpa using hj
      have hno : ¬((a.1 == other) = true) := by
        simp only [beq_iff_eq, hkey]
        exact fun hcontra => hne hcontra.symm
      rw [if_pos hj]
      simp only [jobsGet]
      rw [if_neg (by simpa using hno), if_neg hno]
      exact ih
    · rw [if_neg hj]
      simp only [jobsGet]
      by_cases ho : (a.1 == other) = true
      · rw [if_pos ho, if_pos ho]
      · rw [if_neg ho, if_neg ho]
        exact ih

theorem map_guard_id (jobs : Jobs) (job_id : String)
    (upd : String × Job → String × Job)
    (hkey : ∀ e ∈ jobs, ¬((e.1 == job_id) = true)) :
    jobs.map (fun e => if e.1 == job_id then upd e else e) = jobs := by
  induction jobs with
  | nil => rfl
  | cons a l ih =>
    rw [List.map_cons,
      if_neg (hkey a (List.mem_cons_self a l)),
      ih (fun e he => hkey e (List.mem_cons_of_mem a he))]

theorem jobsGet_none_keys (jobs : Jobs) (job_id : String)
    (hmiss : jobsGet jobs job_id = none) :
    ∀ e ∈ jobs, ¬((e.1 == job_id) = true) := by
  induction jobs with
  | nil => intro e he; cases he
  | cons a l ih =>
    intro e he
    unfold jobsGet at hmiss
    by_cases h : (a.1 == job_id) = true
    · rw [if_pos h] at hmiss; cases hmiss
    · rw [if_neg h] at hmiss
      rcases List.mem_cons.mp he with he1 | he2
      · subst he1; exact h
      · exact ih hmiss e he2

/-! ### Claim C9 -/

/-- Claim C9: the three registry mutation operations called with an
unregistered job_id leave the registry completely unchanged. -/
theorem job_ops_missing_id_c9 (jobs : Jobs) (job_id : String) (processed : ℤ)
    (total : Option ℤ) (out_path message : String)
    (hmiss : jobsGet jobs job_id = none) :
    updateJob jobs job_id processed total = jobs ∧
    finishJob jobs job_id out_path = jobs ∧
    errorJob jobs job_id message = jobs := by
  have hk := jobsGet_none_keys jobs job_id hmiss
  refine ⟨?_, ?_, ?_⟩
  · unfold updateJob
    exact map_guard_id jobs job_id _ hk
  · unfold finishJob
    exact map_guard_id jobs job_id _ hk
  · unfold errorJob
    exact map_guard_id jobs job_id _ hk

/-- Witness for C9: an unregistered id leaves a concrete registry
unchanged. -/
theorem job_ops_missing_id_c9_witness :
    jobsGet [("a", Job.mk JobStatus.running 0 none none none "f.mp4")] "b" = none ∧
    updateJob [("a", Job.mk JobStatus.running 0 none none none "f.mp4")] "b" 5 none
      = [("a", Job.mk JobStatus.running 0 none none none "f.mp4")] :=
  ⟨rfl,
   (job_ops_missing_id_c9 [("a", Job.mk JobStatus.running 0 none none none "f.mp4")]
      "b" 5 none "p" "m" rfl).1⟩

/-! ### Claim C4 -/

/-- Claim C4 (amended): once a job has left running, further writes are
still applied, not absorbed: the operations guard only on presence of the
job_id, overwrite exactly the fields they set, and leave other entries
unchanged. -/
theorem job_terminal_writes_c4 (jobs : Jobs) (job_id : String) (job : Job)
    (processed : ℤ) (total : Option ℤ) (out_path message : String)
    (hget : jobsGet jobs job_id = some job)
    (hterm : job.status ≠ JobStatus.running) :
    jobsGet (updateJob jobs job_id processed total) job_id
      = some { job with processed := processed, total := updTotal total job.total } ∧
    jobsGet (finishJob jobs job_id out_path) job_id
      = some { job with status := JobStatus.done, out_path := some out_path } ∧
    jobsGet (errorJob jobs job_id message) job_id
      = some { job with status := JobStatus.error, error := some message } ∧
    ∀ other, other ≠ job_id →
      jobsGet (updateJob jobs job_id processed total) other = jobsGet jobs other ∧
      jobsGet (finishJob jobs job_id out_path) other = jobsGet jobs other ∧
      jobsGet (errorJob jobs job_id message) other = jobsGet jobs other := by
  refine ⟨?_, ?_, ?_, ?_⟩
  · unfold updateJob
    rw [jobsGet_map_guard jobs job_id
      (fun j => { j with processed := processed, total := updTotal total j.total }), hget]
    rfl
  · unfold finishJob
    rw [jobsGet_map_guard jobs job_id
      (fun j => { j with status := JobStatus.done, out_path := some out_path }), hget]
    rfl
  · unfold errorJob
    rw [jobsGet_map_guard jobs job_id
      (fun j => { j with status := JobStatus.error, error := some message }), hget]
    rfl
  · intro other hne
    refine ⟨?_, ?_, ?_⟩
    · unfold updateJob
      exact jobsGet_map_guard_other jobs job_id other
        (fun j => { j with processed := processed, total := updTotal total j.total }) hne
    · unfold finishJob
      exact jobsGet_map_guard_other jobs job_id other
        (fun j => { j with status := JobStatus.done, out_path := some out_path }) hne
    · unfold errorJob
      exact jobsGet_map_guard_other jobs job_id other
        (fun j => { j with status := JobStatus.error, error := some message }) hne

/-- Counterexample for C4 as stated: a write through _update_job to a
job whose status is done changes the job, so terminal states do not
absorb writes. -/
theorem job_terminal_writes_c4_counterexample :
    (Job.mk JobStatus.done 0 none none (some "out.mp4") "f").status ≠ JobStatus.running ∧
    updateJob [("j", Job.mk JobStatus.done 0 none none (some "out.mp4") "f")] "j" 5 none
      ≠ [("j", Job.mk JobStatus.done 0 none none (some "out.mp4") "f")] := by
  constructor
  · decide
  · decide

/-- Witness for C4: the theorem applied to a one-entry registry holding a
done job. -/
theorem job_terminal_writes_c4_witness :
    jobsGet [("j", Job.mk JobStatus.done 0 none none (some "out.mp4") "f")] "j"
      = some (Job.mk JobStatus.done 0 none none (some "out.mp4") "f") ∧
    (Job.mk JobStatus.done 0 none none (some "out.mp4") "f").status ≠ JobStatus.running ∧
    jobsGet (updateJob [("j", Job.mk JobStatus.done 0 none none (some "out.mp4") "f")] "j" 5 none) "j"
      = some (Job.mk JobStatus.done 5 none none (some "out.mp4") "f") :=
  ⟨rfl, by decide,
   (job_terminal_writes_c4 [("j", Job.mk JobStatus.done 0 none none (some "out.mp4") "f")]
      "j" (Job.mk JobStatus.done 0 none none (some "out.mp4") "f") 5 none "p" "m"
      rfl (by decide)).1⟩

/-! ### Claim C5 -/

/-- Claim C5: job queries have three pairwise-distinct failure outcomes:
404 for an unknown id on both endpoints, 409 for a registered job that is
not done, 410 for a done job whose output path is unset, empty or whose
file no longer exists. -/
theorem job_query_failures_c5 (jobs : Jobs) (fe : String → Bool) (job_id : String) :
    (jobsGet jobs job_id = none →
      annotateProgress jobs job_id = Except.error 404 ∧
      annotateResult jobs fe job_id = Except.error 404) ∧
    (∀ job, jobsGet jobs job_id = some job → job.status ≠ JobStatus.done →
      annotateResult jobs fe job_id = Except.error 409) ∧
    (∀ job, jobsGet jobs job_id = some job → job.status = JobStatus.done →
      (∀ p, job.out_path = some p → p = "" ∨ fe p = false) →
      annotateResult jobs fe job_id = Except.error 410) ∧
    (404 : ℕ) ≠ 409 ∧ (404 : ℕ) ≠ 410 ∧ (409 : ℕ) ≠ 410 := by
  refine ⟨?_, ?_, ?_, by decide, by decide, by decide⟩
  · intro hmiss
    constructor
    · unfold annotateProgress
      rw [hmiss]
    · unfold annotateResult
      rw [hmiss]
  · intro job hget hstat
    unfold annotateResult
    split
    · rename_i heq
      rw [hget] at heq
      cases heq
    · rename_i j heq
      rw [hget] at heq
      injection heq with heq2
      subst heq2
      rw [if_pos hstat]
  · intro job hget hstat hpath
    unfold annotateResult
    split
    · rename_i heq
      rw [hget] at heq
      cases heq
    · rename_i j heq
      rw [hget] at heq
      injection heq with heq2
      subst heq2
      rw [if_neg (by simp [hstat])]
      split
      · rfl
      · rename_i p hop
        rw [if_pos (hpath p hop)]

/-- Witness for C5: the theorem applied to a concrete registry at an
unknown id, a running job and a done job with no output path. -/
theorem job_query_failures_c5_witness :
    (annotateProgress [("b", Job.mk JobStatus.done 3 (some 10) none none "v.mp4"), ("c", Job.mk JobStatus.running 0 none none none "w.mp4")] "a" = Except.error 404 ∧
     annotateResult [("b", Job.mk JobStatus.done 3 (some 10) none none "v.mp4"), ("c", Job.mk JobStatus.running 0 none none none "w.mp4")] (fun _ => false) "a" = Except.error 404) ∧
    annotateResult [("b", Job.mk JobStatus.done 3 (some 10) none none "v.mp4"), ("c", Job.mk JobStatus.running 0 none none none "w.mp4")] (fun _ => false) "c" = Except.error 409 ∧
    annotateResult [("b", Job.mk JobStatus.done 3 (some 10) none none "v.mp4"), ("c", Job.mk JobStatus.running 0 none none none "w.mp4")] (fun _ => false) "b" = Except.error 410 :=
  ⟨(job_query_failures_c5 [("b", Job.mk JobStatus.done 3 (some 10) none none "v.mp4"), ("c", Job.mk JobStatus.running 0 none none none "w.mp4")] (fun _ => false) "a").1 rfl,
   (job_query_failures_c5 [("b", Job.mk JobStatus.done 3 (some 10) none none "v.mp4"), ("c", Job.mk JobStatus.running 0 none none none "w.mp4")] (fun _ => false) "c").2.1
     (Job.mk JobStatus.running 0 none none none "w.mp4") rfl (by decide),
   (job_query_failures_c5 [("b", Job.mk JobStatus.done 3 (some 10) none none "v.mp4"), ("c", Job.mk JobStatus.running 0 none none none "w.mp4")] (fun _ => false) "b").2.2.1
     (Job.mk JobStatus.done 3 (some 10) none none "v.mp4") rfl rfl
     (fun p hp => nomatch hp)⟩

/-! ### Claim C10 -/

/-- Claim C10: every invocation of the signal handler raises SystemExit
out of sys.exit(0); the except-Exception clause does not catch it, so the
stop event is left exactly as it was and SystemExit propagates. -/
theorem stop_handler_c10 (stop : Bool) :
    setStopEvent stop = (stop, some ExcClass.systemExit) ∧
    subclassOfException ExcClass.systemExit = false :=
  ⟨rfl, rfl⟩

end FallSystem
